import Mathlib

/-!
Verification of `nc_tools.py` (shyfem_toolbox).

Shallow embedding conventions:
* Python/numpy floating-point values are modelled as rationals (`ℚ`); the
  data-movement claims only copy, compare and subtract values, never rely on
  rounding, so `ℚ` is faithful for them.
* The implicit cast to single precision performed by assigning into a
  `float32` netCDF variable is modelled by an arbitrary function
  `f32 : ℚ → ℚ` applied pointwise; theorems are quantified over it.
* Fallible code paths (raised exceptions) are modelled with `Except`.
* `np.argmin` returns the first occurrence of the minimum; `argminFirst`
  below computes exactly that index.
* The code takes `np.sqrt` of the squared planar distance before `argmin`;
  since `np.sqrt` is strictly monotone on nonnegative inputs the argmin is
  unchanged, so the embedding compares squared distances directly
  (`argminFirst_map_strictMono` records the justification).
-/

namespace NcTools

/-- Error outcomes of the embedded code paths.
`invalidAxis` is the `ValueError` raised in `sort_river_nodes` for a sort
selector other than 0/1; `missingColumn` is the pandas `KeyError` for a
missing CSV column; `zeroStride` is the error numpy raises for a zero step
(`ZeroDivisionError` in `np.arange`, `ValueError` for a zero slice step). -/
inductive NCErr where
  | invalidAxis
  | missingColumn
  | zeroStride
deriving DecidableEq

/-- `np.arange(0, total, step)` for integer `step ≠ 0`: for positive step the
multiples `0, step, 2*step, …` strictly below `total` (there are
`⌈total/step⌉` of them); for negative step (start `0`, stop `total ≥ 0`) the
result is empty. -/
def arangeNat (total : ℕ) (step : ℤ) : List ℤ :=
  if 0 < step then
    (List.range ((total + step.toNat - 1) / step.toNat)).map (fun i : ℕ => (i : ℤ) * step)
  else []

/-- Python extended slicing `xs[::step]` for `step ≠ 0`: for positive step the
elements at indices `0, step, 2*step, … < len`; for negative step the
elements at indices `len-1, len-1+step, … ≥ 0`. -/
def pySliceStep (xs : List ℤ) (step : ℤ) : List ℤ :=
  if 0 < step then
    (List.range ((xs.length + step.toNat - 1) / step.toNat)).map
      (fun i => xs.getD (i * step.toNat) 0)
  else if step < 0 then
    (List.range ((xs.length + (-step).toNat - 1) / (-step).toNat)).map
      (fun i => xs.getD (xs.length - 1 - i * (-step).toNat) 0)
  else []

/-- Time-step selection logic of `create_subset_nc` (lines 86–89):
`time_steps = np.arange(0, len(time), save_frequency)` when no explicit list
is given, `np.array(time_steps)[::save_frequency]` otherwise.  A zero stride
raises in both branches (modelled as `NCErr.zeroStride`); any nonzero stride,
negative included, is accepted by the code. -/
def select_time_steps (total : ℕ) (explicit : Option (List ℤ)) (stride : ℤ) :
    Except NCErr (List ℤ) :=
  match explicit with
  | none => if stride = 0 then .error .zeroStride else .ok (arangeNat total stride)
  | some xs => if stride = 0 then .error .zeroStride else .ok (pySliceStep xs stride)

example : select_time_steps 10 none 2 = .ok [0, 2, 4, 6, 8] := rfl
example : select_time_steps 10 (some [1, 3, 5, 7, 9]) 2 = .ok [1, 5, 9] := rfl
example : select_time_steps 5 none 0 = .error .zeroStride := rfl
example : select_time_steps 5 none (-1) = .ok [] := rfl
example : select_time_steps 5 (some [1, 2, 3]) (-1) = .ok [3, 2, 1] := rfl

/-- Ceiling-division bound used by `arangeNat`/`pySliceStep`: for positive `s`,
`i < ⌈t/s⌉ ↔ i*s < t`. -/
theorem lt_ceilDiv_iff_mul_lt {s : ℕ} (hs : 0 < s) (i t : ℕ) :
    i < (t + s - 1) / s ↔ i * s < t := by
  rw [show (i < (t + s - 1) / s) ↔ (i + 1 ≤ (t + s - 1) / s) from Iff.rfl,
    Nat.le_div_iff_mul_le hs]
  constructor
  · intro h
    have h' : i * s + s ≤ t + s - 1 := by
      have : (i + 1) * s = i * s + s := by ring
      omega
    omega
  · intro h
    have : (i + 1) * s = i * s + s := by ring
    omega

/-- Evaluation of `getD` on a mapped `range`. -/
theorem getD_map_range {α : Type} (f : ℕ → α) (k i : ℕ) (d : α) (h : i < k) :
    ((List.range k).map f).getD i d = f i := by
  rw [List.getD_eq_getElem?_getD, List.getElem?_map, List.getElem?_range h]
  rfl

/-- C3: for a positive stride, `select_time_steps` with no explicit list
returns the multiples `0, stride, 2*stride, …` strictly below `total` in
increasing order, and with an explicit list it returns every `stride`-th
element of that list starting from its first element (a slicing step over
the sequence, not a value stride), preserving duplicates and without any
range validation. -/
theorem select_time_steps_correct (total : ℕ) (xs : List ℤ) (stride : ℤ)
    (hs : 0 < stride) :
    (∃ L, select_time_steps total none stride = .ok L ∧
      (∀ i : ℕ, i < L.length → L.getD i 0 = (i : ℤ) * stride) ∧
      (∀ i : ℕ, i < L.length ↔ (i : ℤ) * stride < (total : ℤ))) ∧
    (∃ M, select_time_steps total (some xs) stride = .ok M ∧
      (∀ i : ℕ, i < M.length ↔ i * stride.toNat < xs.length) ∧
      (∀ i : ℕ, i < M.length → M.getD i 0 = xs.getD (i * stride.toNat) 0)) := by
  have hs0 : stride ≠ 0 := by omega
  have hsn : 0 < stride.toNat := by omega
  have hcast : ((stride.toNat : ℤ)) = stride := Int.toNat_of_nonneg (le_of_lt hs)
  constructor
  · refine ⟨arangeNat total stride, ?_, ?_, ?_⟩
    · simp [select_time_steps, hs0]
    · intro i hi
      unfold arangeNat at hi ⊢
      rw [if_pos hs] at hi ⊢
      rw [List.length_map, List.length_range] at hi
      exact getD_map_range _ _ _ _ hi
    · intro i
      unfold arangeNat
      rw [if_pos hs, List.length_map, List.length_range,
        lt_ceilDiv_iff_mul_lt hsn]
      constructor
      · intro h
        have : ((i * stride.toNat : ℕ) : ℤ) < (total : ℤ) := by exact_mod_cast h
        calc (i : ℤ) * stride = ((i * stride.toNat : ℕ) : ℤ) := by push_cast [hcast]; ring
          _ < (total : ℤ) := this
      · intro h
        have : ((i * stride.toNat : ℕ) : ℤ) < (total : ℤ) := by
          calc ((i * stride.toNat : ℕ) : ℤ) = (i : ℤ) * stride := by push_cast [hcast]; ring
            _ < (total : ℤ) := h
        exact_mod_cast this
  · refine ⟨pySliceStep xs stride, ?_, ?_, ?_⟩
    · simp [select_time_steps, hs0]
    · intro i
      unfold pySliceStep
      rw [if_pos hs, List.length_map, List.length_range,
        lt_ceilDiv_iff_mul_lt hsn]
    · intro i hi
      unfold pySliceStep at hi ⊢
      rw [if_pos hs] at hi ⊢
      rw [List.length_map, List.length_range] at hi
      exact getD_map_range _ _ _ _ hi

/-- Witness for C3 at the spec's own example: `total = 10`,
`explicit = [1,3,5,7,9]`, `stride = 2`, a positive stride. -/
theorem select_time_steps_correct_witness :
    (∃ L, select_time_steps 10 none 2 = .ok L ∧
      (∀ i : ℕ, i < L.length → L.getD i 0 = (i : ℤ) * 2) ∧
      (∀ i : ℕ, i < L.length ↔ (i : ℤ) * 2 < (10 : ℤ))) ∧
    (∃ M, select_time_steps 10 (some [1, 3, 5, 7, 9]) 2 = .ok M ∧
      (∀ i : ℕ, i < M.length ↔ i * (2 : ℤ).toNat < [(1 : ℤ), 3, 5, 7, 9].length) ∧
      (∀ i : ℕ, i < M.length → M.getD i 0 = [(1 : ℤ), 3, 5, 7, 9].getD (i * (2 : ℤ).toNat) 0)) :=
  select_time_steps_correct 10 [1, 3, 5, 7, 9] 2 (by norm_num)

/-- C7 (corrected): only a zero stride fails; with stride `0` both branches
of `select_time_steps` raise (`np.arange` with zero step, slicing with zero
step), for every total and explicit list. -/
theorem select_time_steps_zero_stride (total : ℕ) (xs : List ℤ) :
    select_time_steps total none 0 = .error .zeroStride ∧
    select_time_steps total (some xs) 0 = .error .zeroStride := by
  constructor <;> rfl

/-- Counterexample to C7 as stated: a negative stride does not fail.  With
`total = 5`, no explicit list and `stride = -1`, the code returns the empty
selection (`np.arange(0, 5, -1)` is empty), not an error. -/
theorem select_time_steps_negative_ok :
    select_time_steps 5 none (-1) = .ok [] := rfl

/-- One row of the river-node CSV: columns `Node`, `Lat`, `Lon`. -/
structure RiverNode where
  node : ℤ
  lat : ℚ
  lon : ℚ
deriving DecidableEq, Inhabited

/-- The `(lat, lon)` pair of a node, the argument order `geodesic` takes. -/
def latlon (r : RiverNode) : ℚ × ℚ := (r.lat, r.lon)

/-- The coordinate `sort_river_nodes` sorts by: `Lon` for axis 0 (west-east),
`Lat` for axis 1 (north-south). -/
def axisKey (axis : ℤ) (r : RiverNode) : ℚ := if axis = 0 then r.lon else r.lat

/-- Sorting step of `sort_river_nodes` (lines 30–35): sort by `Lon` when the
selector is 0, by `Lat` when it is 1, otherwise raise `ValueError`.  The
pandas `sort_values` call is modelled as a comparison sort by the chosen
column (`mergeSort`); note that pandas' default `kind='quicksort'` leaves
the relative order of equal keys unspecified, so only key-ordering and
multiset facts about this model transfer to the code, not tie order. -/
def order_nodes (rows : List RiverNode) (axis : ℤ) : Except NCErr (List RiverNode) :=
  if axis = 0 then .ok (rows.mergeSort (fun a b => decide (a.lon ≤ b.lon)))
  else if axis = 1 then .ok (rows.mergeSort (fun a b => decide (a.lat ≤ b.lat)))
  else .error .invalidAxis

/-- Distance loop of `sort_river_nodes` (lines 41–45): `d1 = [0] * n`, then
for `rr = n-1, …, 1` set `d1[rr-1] = geodesic((lat_rr, lon_rr),
(lat_(rr-1), lon_(rr-1))).meters`.  Each slot is written at most once with a
value independent of `d1`, so slot `i ≤ n-2` holds
`dist (latlon p_(i+1)) (latlon p_i)` and slot `n-1` keeps its initial `0`.
The geodesic distance itself is kept abstract as `dist`. -/
def consecutive_distances (dist : ℚ × ℚ → ℚ × ℚ → ℚ) (pts : List RiverNode) : List ℚ :=
  (List.range pts.length).map (fun i =>
    if i + 1 < pts.length then dist (latlon (pts.getD (i + 1) default)) (latlon (pts.getD i default))
    else 0)

/-- `sort_river_nodes` (lines 18–54): sort the rows by the selected axis,
then attach the consecutive-pair distance column. -/
def sort_river_nodes (dist : ℚ × ℚ → ℚ × ℚ → ℚ) (rows : List RiverNode) (axis : ℤ) :
    Except NCErr (List RiverNode × List ℚ) :=
  match order_nodes rows axis with
  | .error e => .error e
  | .ok sorted => .ok (sorted, consecutive_distances dist sorted)

/-- For a valid axis, `order_nodes` succeeds with a permutation of the input. -/
theorem order_nodes_ok_perm (rows : List RiverNode) (axis : ℤ)
    (hax : axis = 0 ∨ axis = 1) :
    ∃ out, order_nodes rows axis = .ok out ∧ out.Perm rows := by
  rcases hax with h | h <;> subst h
  · exact ⟨_, rfl, List.mergeSort_perm _ _⟩
  · exact ⟨_, by rfl, List.mergeSort_perm _ _⟩

/-- C5: for each valid axis selector (0 = west-east, 1 = north-south) the
output of `order_nodes` is sorted non-decreasing along the chosen coordinate
(`Lon` for 0, `Lat` for 1). -/
theorem order_nodes_sorted (rows : List RiverNode) (axis : ℤ)
    (hax : axis = 0 ∨ axis = 1) :
    ∃ out, order_nodes rows axis = .ok out ∧
      List.Pairwise (fun a b => axisKey axis a ≤ axisKey axis b) out := by
  rcases hax with h | h <;> subst h
  · refine ⟨_, rfl, ?_⟩
    have := @List.sorted_mergeSort RiverNode (fun a b : RiverNode => decide (a.lon ≤ b.lon))
      (fun a b c hab hbc => by
        simp only [decide_eq_true_eq] at *; exact le_trans hab hbc)
      (fun a b => by
        simp only [Bool.or_eq_true, decide_eq_true_eq]; exact le_total _ _) rows
    exact this.imp (by intro a b h; simpa [axisKey] using h)
  · refine ⟨_, by rfl, ?_⟩
    have := @List.sorted_mergeSort RiverNode (fun a b : RiverNode => decide (a.lat ≤ b.lat))
      (fun a b c hab hbc => by
        simp only [decide_eq_true_eq] at *; exact le_trans hab hbc)
      (fun a b => by
        simp only [Bool.or_eq_true, decide_eq_true_eq]; exact le_total _ _) rows
    exact this.imp (by intro a b h; simpa [axisKey] using h)

/-- Witness for C5: two concrete nodes sorted west-east. -/
theorem order_nodes_sorted_witness :
    ∃ out, order_nodes [⟨1, 0, 5⟩, ⟨2, 1, 3⟩] 0 = .ok out ∧
      List.Pairwise (fun a b => axisKey 0 a ≤ axisKey 0 b) out :=
  order_nodes_sorted [⟨1, 0, 5⟩, ⟨2, 1, 3⟩] 0 (Or.inl rfl)

/-- C4: for a symmetric distance function, a nonempty input and a valid axis,
the distance column of `sort_river_nodes` has the same length as the node
column, its entry `i` (for `i` before the last) is the distance between
sorted node `i` and sorted node `i+1`, and its last entry is exactly `0`. -/
theorem sort_river_nodes_distances (dist : ℚ × ℚ → ℚ × ℚ → ℚ)
    (rows : List RiverNode) (axis : ℤ)
    (hsymm : ∀ a b, dist a b = dist b a)
    (hax : axis = 0 ∨ axis = 1) (hne : rows ≠ []) :
    ∃ sorted d, sort_river_nodes dist rows axis = .ok (sorted, d) ∧
      d.length = sorted.length ∧
      (∀ i : ℕ, i + 1 < sorted.length →
        d.getD i 0 = dist (latlon (sorted.getD i default)) (latlon (sorted.getD (i + 1) default))) ∧
      d.getD (sorted.length - 1) 1 = 0 := by
  obtain ⟨sorted, hok, hperm⟩ := order_nodes_ok_perm rows axis hax
  have hlen : sorted.length = rows.length := hperm.length_eq
  have hpos : 0 < sorted.length := by
    rw [hlen]
    exact List.length_pos.mpr hne
  refine ⟨sorted, consecutive_distances dist sorted, ?_, ?_, ?_, ?_⟩
  · unfold sort_river_nodes
    rw [hok]
  · simp [consecutive_distances]
  · intro i hi
    unfold consecutive_distances
    rw [getD_map_range _ _ _ _ (by omega), if_pos hi, hsymm]
  · unfold consecutive_distances
    rw [getD_map_range _ _ _ _ (by omega), if_neg (by omega)]

/-- Witness for C4: three concrete nodes, a concrete symmetric distance. -/
theorem sort_river_nodes_distances_witness :
    ∃ sorted d,
      sort_river_nodes (fun a b => (a.1 - b.1) ^ 2 + (a.2 - b.2) ^ 2)
        [⟨1, 0, 5⟩, ⟨2, 1, 3⟩, ⟨3, 2, 4⟩] 0 = .ok (sorted, d) ∧
      d.length = sorted.length ∧
      (∀ i : ℕ, i + 1 < sorted.length →
        d.getD i 0 = (fun a b : ℚ × ℚ => (a.1 - b.1) ^ 2 + (a.2 - b.2) ^ 2)
          (latlon (sorted.getD i default)) (latlon (sorted.getD (i + 1) default))) ∧
      d.getD (sorted.length - 1) 1 = 0 :=
  sort_river_nodes_distances (fun a b => (a.1 - b.1) ^ 2 + (a.2 - b.2) ^ 2)
    [⟨1, 0, 5⟩, ⟨2, 1, 3⟩, ⟨3, 2, 4⟩] 0
    (fun a b => by ring) (Or.inl rfl) (by simp)

/-- Index of the first occurrence of the minimum of a list (`np.argmin`):
`0` on the empty list (where numpy raises instead — callers only use it on
nonempty lists). -/
def argminFirst : List ℚ → ℕ
  | [] => 0
  | x :: xs =>
    if xs.length = 0 then 0
    else if x ≤ xs.getD (argminFirst xs) 0 then 0 else argminFirst xs + 1

/-- `argminFirst` stays in bounds on a nonempty list. -/
theorem argminFirst_lt (l : List ℚ) (h : l ≠ []) : argminFirst l < l.length := by
  induction l with
  | nil => exact absurd rfl h
  | cons x xs ih =>
    unfold argminFirst
    by_cases hx : xs.length = 0
    · rw [if_pos hx]
      simp
    · rw [if_neg hx]
      have hxs : xs ≠ [] := by
        intro he
        exact hx (by simp [he])
      have := ih hxs
      by_cases hle : x ≤ xs.getD (argminFirst xs) 0
      · rw [if_pos hle]
        simp
      · rw [if_neg hle]
        simpa using Nat.succ_lt_succ this

/-- The element at `argminFirst` is a minimum of the list. -/
theorem argminFirst_min (l : List ℚ) :
    ∀ j : ℕ, j < l.length → l.getD (argminFirst l) 0 ≤ l.getD j 0 := by
  induction l with
  | nil => intro j hj; simp at hj
  | cons x xs ih =>
    intro j hj
    unfold argminFirst
    by_cases hx : xs.length = 0
    · rw [if_pos hx]
      have hxs : xs = [] := List.length_eq_zero.mp hx
      subst hxs
      match j with
      | 0 => simp
      | j' + 1 =>
        simp only [List.length_cons, List.length_nil] at hj
        omega
    · rw [if_neg hx]
      by_cases hle : x ≤ xs.getD (argminFirst xs) 0
      · rw [if_pos hle]
        match j with
        | 0 => simp
        | j' + 1 =>
          rw [List.getD_cons_zero, List.getD_cons_succ]
          exact le_trans hle (ih j' (by simpa using hj))
      · rw [if_neg hle]
        rw [List.getD_cons_succ]
        match j with
        | 0 =>
          rw [List.getD_cons_zero]
          exact le_of_lt (lt_of_not_le hle)
        | j' + 1 =>
          rw [List.getD_cons_succ]
          exact ih j' (by simpa using hj)

/-- Everything strictly before `argminFirst` is strictly greater: the index
is the FIRST occurrence of the minimum. -/
theorem argminFirst_first (l : List ℚ) :
    ∀ j : ℕ, j < argminFirst l → l.getD (argminFirst l) 0 < l.getD j 0 := by
  induction l with
  | nil => intro j hj; simp [argminFirst] at hj
  | cons x xs ih =>
    intro j hj
    unfold argminFirst at hj ⊢
    by_cases hx : xs.length = 0
    · rw [if_pos hx] at hj
      exact absurd hj (Nat.not_lt_zero j)
    · rw [if_neg hx] at hj ⊢
      by_cases hle : x ≤ xs.getD (argminFirst xs) 0
      · rw [if_pos hle] at hj
        exact absurd hj (Nat.not_lt_zero j)
      · rw [if_neg hle] at hj ⊢
        rw [List.getD_cons_succ]
        match j with
        | 0 =>
          rw [List.getD_cons_zero]
          exact lt_of_not_le hle
        | j' + 1 =>
          rw [List.getD_cons_succ]
          exact ih j' (by omega)

/-- Applying a monotone-reflecting transform (such as `np.sqrt` on the
nonnegative squared distances) to every element leaves `argminFirst`
unchanged: this is why the embedding of the resolver may drop the `np.sqrt`
the code applies before `np.argmin`. -/
theorem argminFirst_map_strictMono (g : ℚ → ℚ) (l : List ℚ)
    (hg : ∀ a b : ℚ, 0 ≤ a → 0 ≤ b → (g a ≤ g b ↔ a ≤ b))
    (hl : ∀ x ∈ l, 0 ≤ x) :
    argminFirst (l.map g) = argminFirst l := by
  induction l with
  | nil => rfl
  | cons x xs ih =>
    have hxs : ∀ y ∈ xs, (0 : ℚ) ≤ y := fun y hy => hl y (List.mem_cons_of_mem x hy)
    rw [List.map_cons]
    simp only [argminFirst]
    by_cases hx : xs.length = 0
    · have : xs = [] := List.length_eq_zero.mp hx
      subst this
      rfl
    · rw [ih hxs]
      have hlenmap : (xs.map g).length ≠ 0 := by simpa using hx
      rw [if_neg hlenmap, if_neg hx]
      have hxs' : xs ≠ [] := fun he => hx (by simp [he])
      have hmlt : argminFirst xs < xs.length := argminFirst_lt xs hxs'
      have hgetD : (xs.map g).getD (argminFirst xs) 0 = g (xs.getD (argminFirst xs) 0) := by
        rw [List.getD_eq_getElem?_getD, List.getD_eq_getElem?_getD, List.getElem?_map,
          List.getElem?_eq_getElem hmlt]
        rfl
      rw [hgetD]
      have hmem : xs.getD (argminFirst xs) 0 ∈ xs := by
        rw [List.getD_eq_getElem?_getD, List.getElem?_eq_getElem hmlt]
        exact List.getElem_mem hmlt
      by_cases hle : x ≤ xs.getD (argminFirst xs) 0
      · rw [if_pos hle,
          if_pos ((hg x _ (hl x (List.mem_cons_self x xs)) (hxs _ hmem)).mpr hle)]
      · rw [if_neg hle,
          if_neg (fun hc => hle ((hg x _ (hl x (List.mem_cons_self x xs)) (hxs _ hmem)).mp hc))]

/-- Squared planar Euclidean distance in (longitude, latitude) space between
a query `q = (lon, lat)` and a grid coordinate `c = (lon, lat)`: the value
under the `np.sqrt` in `(longitude - lon)**2 + (latitude - lat)**2`. -/
def sqDist (q c : ℚ × ℚ) : ℚ := (c.1 - q.1) ^ 2 + (c.2 - q.2) ^ 2

/-- Grid coordinate `j` of parallel 1-D longitude/latitude arrays. -/
def gridCell (gridLon gridLat : List ℚ) (j : ℕ) : ℚ × ℚ :=
  (gridLon.getD j 0, gridLat.getD j 0)

/-- Nearest-grid-index resolution of `create_subset_nc` (lines 80–84) for
1-D coordinate arrays: for each query `(lon, lat)` compute the elementwise
planar distances to all grid coordinates and keep `np.argmin`.  On a 1-D
array `np.unravel_index(m, (n,)) = (m,)`, so `node_idx[0]` is the flat
argmin itself.  The `np.sqrt` is dropped because it does not change the
argmin (`argminFirst_map_strictMono`). -/
def resolve_indices (gridLon gridLat : List ℚ) (queries : List (ℚ × ℚ)) : List ℕ :=
  queries.map (fun q =>
    argminFirst (List.zipWith (fun x y => (x - q.1) ^ 2 + (y - q.2) ^ 2) gridLon gridLat))

/-- The same resolution on 2-D coordinate arrays (row-major, rectangular):
`np.argmin` runs over the row-major flattening, `np.unravel_index` turns the
flat position `m` into `(m / ncols, m % ncols)`, and the code keeps only
component `[0]`, the ROW index `m / ncols`. -/
def resolve_indices2 (gridLon gridLat : List (List ℚ)) (queries : List (ℚ × ℚ)) : List ℕ :=
  queries.map (fun q =>
    let flat := (List.zipWith
      (fun row1 row2 => List.zipWith (fun x y => (x - q.1) ^ 2 + (y - q.2) ^ 2) row1 row2)
      gridLon gridLat).flatten
    argminFirst flat / (gridLon.headD []).length)

/-- C2 (amended to 1-D grids): `resolve_indices` returns one grid index per
query, in query order, each index in bounds, minimizing the squared planar
distance over the whole grid, with ties broken by the first occurrence in
grid order (every strictly earlier index is strictly farther); no distance
threshold and no de-duplication. -/
theorem resolve_indices_nearest (gridLon gridLat : List ℚ) (queries : List (ℚ × ℚ))
    (hlen : gridLon.length = gridLat.length) (hne : gridLon ≠ []) :
    (resolve_indices gridLon gridLat queries).length = queries.length ∧
    ∀ i : ℕ, i < queries.length →
      (resolve_indices gridLon gridLat queries).getD i 0 < gridLon.length ∧
      (∀ j : ℕ, j < gridLon.length →
        sqDist (queries.getD i (0, 0))
            (gridCell gridLon gridLat ((resolve_indices gridLon gridLat queries).getD i 0)) ≤
          sqDist (queries.getD i (0, 0)) (gridCell gridLon gridLat j)) ∧
      (∀ j : ℕ, j < (resolve_indices gridLon gridLat queries).getD i 0 →
        sqDist (queries.getD i (0, 0)) (gridCell gridLon gridLat j) >
          sqDist (queries.getD i (0, 0))
            (gridCell gridLon gridLat ((resolve_indices gridLon gridLat queries).getD i 0))) := by
  constructor
  · simp [resolve_indices]
  · intro i hi
    set q := queries.getD i (0, 0) with hq
    set dl := List.zipWith (fun x y => (x - q.1) ^ 2 + (y - q.2) ^ 2) gridLon gridLat with hdl
    have hdlen : dl.length = gridLon.length := by
      rw [hdl, List.length_zipWith, hlen, min_self]
    have hdne : dl ≠ [] := by
      intro he
      apply hne
      have : dl.length = 0 := by rw [he]; rfl
      rw [hdlen] at this
      exact List.length_eq_zero.mp this
    have hqi : q = queries[i] := by
      rw [hq, List.getD_eq_getElem?_getD, List.getElem?_eq_getElem hi]
      rfl
    have hres : (resolve_indices gridLon gridLat queries).getD i 0 = argminFirst dl := by
      unfold resolve_indices
      rw [List.getD_eq_getElem?_getD, List.getElem?_map, List.getElem?_eq_getElem hi,
        hdl, hqi]
      rfl
    have hcell : ∀ j : ℕ, j < gridLon.length →
        dl.getD j 0 = sqDist q (gridCell gridLon gridLat j) := by
      intro j hj
      have hj' : j < gridLat.length := hlen ▸ hj
      rw [hdl, List.getD_eq_getElem?_getD, List.getElem?_zipWith,
        List.getElem?_eq_getElem hj, List.getElem?_eq_getElem hj']
      simp only [Option.getD_some]
      rw [sqDist, gridCell]
      rw [List.getD_eq_getElem?_getD, List.getElem?_eq_getElem hj,
        List.getD_eq_getElem?_getD, List.getElem?_eq_getElem hj']
      simp
    have hm : argminFirst dl < gridLon.length := hdlen ▸ argminFirst_lt dl hdne
    refine ⟨hres ▸ hm, ?_, ?_⟩
    · intro j hj
      rw [hres, ← hcell _ hm, ← hcell _ hj]
      exact argminFirst_min dl j (hdlen ▸ hj)
    · intro j hj
      rw [hres] at hj ⊢
      have hjlt : j < gridLon.length := lt_trans hj hm
      rw [← hcell _ hm, ← hcell _ hjlt]
      exact argminFirst_first dl j hj

/-- Witness for C2: a 3-point 1-D grid and two queries; the second query is
equidistant from grid points 1 and 2 and the tie goes to index 1. -/
theorem resolve_indices_nearest_witness :
    (resolve_indices [0, 2, 4] [0, 0, 0] [(39/10, 0), (3, 1)]).length = 2 ∧
    ∀ i : ℕ, i < ([((39 : ℚ)/10, (0 : ℚ)), (3, 1)] : List (ℚ × ℚ)).length →
      (resolve_indices [0, 2, 4] [0, 0, 0] [(39/10, 0), (3, 1)]).getD i 0 < ([(0 : ℚ), 2, 4] : List ℚ).length ∧
      (∀ j : ℕ, j < ([(0 : ℚ), 2, 4] : List ℚ).length →
        sqDist (([((39 : ℚ)/10, (0 : ℚ)), (3, 1)] : List (ℚ × ℚ)).getD i (0, 0))
            (gridCell [0, 2, 4] [0, 0, 0]
              ((resolve_indices [0, 2, 4] [0, 0, 0] [(39/10, 0), (3, 1)]).getD i 0)) ≤
          sqDist (([((39 : ℚ)/10, (0 : ℚ)), (3, 1)] : List (ℚ × ℚ)).getD i (0, 0))
            (gridCell [0, 2, 4] [0, 0, 0] j)) ∧
      (∀ j : ℕ, j < (resolve_indices [0, 2, 4] [0, 0, 0] [(39/10, 0), (3, 1)]).getD i 0 →
        sqDist (([((39 : ℚ)/10, (0 : ℚ)), (3, 1)] : List (ℚ × ℚ)).getD i (0, 0))
            (gridCell [0, 2, 4] [0, 0, 0] j) >
          sqDist (([((39 : ℚ)/10, (0 : ℚ)), (3, 1)] : List (ℚ × ℚ)).getD i (0, 0))
            (gridCell [0, 2, 4] [0, 0, 0]
              ((resolve_indices [0, 2, 4] [0, 0, 0] [(39/10, 0), (3, 1)]).getD i 0))) :=
  resolve_indices_nearest [0, 2, 4] [0, 0, 0] [(39/10, 0), (3, 1)] (by rfl) (by simp)

/-- Counterexample to C2 as stated for 2-D grids: on the 2×2 grid with
longitudes `[[0,10],[20,30]]` and zero latitudes, the query `(10, 0)` has
its unique nearest cell at row-major position 1 (distance 0), yet the code
returns `1 / ncols = 0`; the cell at position 0 is strictly farther, so the
returned value is not an index of a minimizing grid cell. -/
theorem resolve_indices2_counterexample :
    resolve_indices2 [[0, 10], [20, 30]] [[0, 0], [0, 0]] [(10, 0)] = [0] ∧
    sqDist (10, 0) (gridCell [0, 10, 20, 30] [0, 0, 0, 0] 1) <
      sqDist (10, 0) (gridCell [0, 10, 20, 30] [0, 0, 0, 0] 0) := by
  constructor
  · norm_num [resolve_indices2, argminFirst]
  · norm_num [sqDist, gridCell]

/-- The source NetCDF dataset variables read by `create_subset_nc`
(lines 69–74): `longitude`, `latitude`, `total_depth` are node-indexed,
`level` level-indexed, `time` time-indexed, `salinity` and `temperature`
time × node × level. -/
structure Dataset where
  longitude : List ℚ
  latitude : List ℚ
  level : List ℚ
  total_depth : List ℚ
  time : List ℚ
  salinity : List (List (List ℚ))
  temperature : List (List (List ℚ))
deriving DecidableEq

/-- The destination dataset written by `create_subset_nc` (lines 91–118):
declared dimensions plus the populated variables. -/
structure SubsetDataset where
  node_dim : ℕ
  level_dim : ℕ
  time_dim : ℕ
  longitude : List ℚ
  latitude : List ℚ
  level : List ℚ
  total_depth : List ℚ
  time : List ℚ
  salinity : List (List (List ℚ))
  temperature : List (List (List ℚ))
deriving DecidableEq

/-- Writer phase of `create_subset_nc` (lines 91–118), given the node index
mapping `idx` (`river_nodes_idx`) and the selected time steps `tsteps`:
dimensions `node = len(idx)`, `level = len(level)`, `time = len(tsteps)`;
per-node variables fancy-indexed by `idx`; `level` copied in full; `time`
fancy-indexed by `tsteps`; for each selected time step `t` (in order) the
`salinity`/`temperature` slice `[t, idx, :]` goes to the next output slot.
`f32` is the cast applied by assignment into a `float32` variable
(`level`, `total_depth`, `salinity`, `temperature`); `longitude`,
`latitude`, `time` are `float64` and copied unchanged. -/
def write_subset (f32 : ℚ → ℚ) (ds : Dataset) (idx : List ℕ) (tsteps : List ℕ) :
    SubsetDataset :=
  { node_dim := idx.length
    level_dim := ds.level.length
    time_dim := tsteps.length
    longitude := idx.map (fun j => ds.longitude.getD j 0)
    latitude := idx.map (fun j => ds.latitude.getD j 0)
    level := ds.level.map f32
    total_depth := idx.map (fun j => f32 (ds.total_depth.getD j 0))
    time := tsteps.map (fun t => ds.time.getD t 0)
    salinity := tsteps.map (fun t => idx.map (fun j => ((ds.salinity.getD t []).getD j []).map f32))
    temperature := tsteps.map (fun t => idx.map (fun j => ((ds.temperature.getD t []).getD j []).map f32)) }

/-- `getD` through `map`, in bounds: the default on the right is irrelevant. -/
theorem getD_map_lt {α β : Type} (f : α → β) (l : List α) (i : ℕ) (d : β) (a : α)
    (h : i < l.length) : (l.map f).getD i d = f (l.getD i a) := by
  rw [List.getD_eq_getElem?_getD, List.getElem?_map, List.getElem?_eq_getElem h,
    List.getD_eq_getElem?_getD, List.getElem?_eq_getElem h]
  rfl

/-- C1: dimensions of the written subset are `node = len(idx)`,
`level = len(source level)`, `time = len(tsteps)`; per-node variables are
copied through the index mapping in its order (`total_depth` through the
`f32` cast); `level` is copied in full through `f32`; `time` values are
copied at the selected indices; and for every output slot `i` holding
selected source time `tsteps[i]`, output node `j` and level `k`, the
salinity and temperature values are the source values at
`[tsteps[i], idx[j], k]` through `f32`. -/
theorem write_subset_spec (f32 : ℚ → ℚ) (ds : Dataset) (idx : List ℕ) (tsteps : List ℕ) :
    (write_subset f32 ds idx tsteps).node_dim = idx.length ∧
    (write_subset f32 ds idx tsteps).level_dim = ds.level.length ∧
    (write_subset f32 ds idx tsteps).time_dim = tsteps.length ∧
    (∀ j : ℕ, j < idx.length →
      (write_subset f32 ds idx tsteps).longitude.getD j 0 = ds.longitude.getD (idx.getD j 0) 0 ∧
      (write_subset f32 ds idx tsteps).latitude.getD j 0 = ds.latitude.getD (idx.getD j 0) 0 ∧
      (write_subset f32 ds idx tsteps).total_depth.getD j 0 =
        f32 (ds.total_depth.getD (idx.getD j 0) 0)) ∧
    (write_subset f32 ds idx tsteps).level = ds.level.map f32 ∧
    (∀ i : ℕ, i < tsteps.length →
      (write_subset f32 ds idx tsteps).time.getD i 0 = ds.time.getD (tsteps.getD i 0) 0) ∧
    (∀ i : ℕ, i < tsteps.length → ∀ j : ℕ, j < idx.length → ∀ k : ℕ,
      k < ((ds.salinity.getD (tsteps.getD i 0) []).getD (idx.getD j 0) []).length →
      (((write_subset f32 ds idx tsteps).salinity.getD i []).getD j []).getD k 0 =
        f32 (((ds.salinity.getD (tsteps.getD i 0) []).getD (idx.getD j 0) []).getD k 0)) ∧
    (∀ i : ℕ, i < tsteps.length → ∀ j : ℕ, j < idx.length → ∀ k : ℕ,
      k < ((ds.temperature.getD (tsteps.getD i 0) []).getD (idx.getD j 0) []).length →
      (((write_subset f32 ds idx tsteps).temperature.getD i []).getD j []).getD k 0 =
        f32 (((ds.temperature.getD (tsteps.getD i 0) []).getD (idx.getD j 0) []).getD k 0)) := by
  refine ⟨rfl, rfl, rfl, ?_, rfl, ?_, ?_, ?_⟩
  · intro j hj
    exact ⟨getD_map_lt _ idx j 0 0 hj, getD_map_lt _ idx j 0 0 hj, getD_map_lt _ idx j 0 0 hj⟩
  · intro i hi
    exact getD_map_lt _ tsteps i 0 0 hi
  · intro i hi j hj k hk
    simp only [write_subset]
    rw [getD_map_lt _ tsteps i [] 0 hi, getD_map_lt _ idx j [] 0 hj,
      getD_map_lt f32 _ k 0 0 hk]
  · intro i hi j hj k hk
    simp only [write_subset]
    rw [getD_map_lt _ tsteps i [] 0 hi, getD_map_lt _ idx j [] 0 hj,
      getD_map_lt f32 _ k 0 0 hk]

/-- A small concrete source dataset: 2 nodes, 2 levels, 2 time steps. -/
def sampleDataset : Dataset :=
  { longitude := [1, 2]
    latitude := [3, 4]
    level := [0, 5]
    total_depth := [30, 40]
    time := [100, 200]
    salinity := [[[11, 12], [13, 14]], [[15, 16], [17, 18]]]
    temperature := [[[21, 22], [23, 24]], [[25, 26], [27, 28]]] }

/-- Witness for C1: node mapping `[1, 0]`, single selected time step `1`,
identity cast; the bound hypotheses are discharged at concrete indices. -/
theorem write_subset_spec_witness :
    (write_subset id sampleDataset [1, 0] [1]).node_dim = 2 ∧
    (write_subset id sampleDataset [1, 0] [1]).longitude.getD 0 0 =
      sampleDataset.longitude.getD 1 0 ∧
    (write_subset id sampleDataset [1, 0] [1]).time.getD 0 0 =
      sampleDataset.time.getD 1 0 ∧
    (((write_subset id sampleDataset [1, 0] [1]).salinity.getD 0 []).getD 0 []).getD 1 0 =
      id (((sampleDataset.salinity.getD 1 []).getD 1 []).getD 1 0) ∧
    (((write_subset id sampleDataset [1, 0] [1]).temperature.getD 0 []).getD 1 []).getD 0 0 =
      id (((sampleDataset.temperature.getD 1 []).getD 0 []).getD 0 0) := by
  obtain ⟨h1, -, -, hnode, -, htime, hsal, htmp⟩ :=
    write_subset_spec id sampleDataset [1, 0] [1]
  refine ⟨h1, ?_, htime 0 (by norm_num), ?_, ?_⟩
  · exact (hnode 0 (by norm_num)).1
  · exact hsal 0 (by norm_num) 0 (by norm_num) 1 (by norm_num [sampleDataset])
  · exact htmp 0 (by norm_num) 1 (by norm_num) 0 (by norm_num [sampleDataset])

/-- Mapping each index of `range l.length` through `getD` reproduces `l`
composed with `g`. -/
theorem range_map_getD_comp {α β : Type} (l : List α) (d : α) (g : α → β) :
    (List.range l.length).map (fun j => g (l.getD j d)) = l.map g := by
  apply List.ext_getElem (by simp)
  intro i h1 h2
  rw [List.getElem_map, List.getElem_range, List.getElem_map,
    List.getD_eq_getElem?_getD, List.getElem?_eq_getElem (by simpa using h2)]
  rfl

/-- Special case of `range_map_getD_comp` with the identity. -/
theorem range_map_getD {α : Type} (l : List α) (d : α) :
    (List.range l.length).map (fun j => l.getD j d) = l := by
  have := range_map_getD_comp l d id
  simpa using this

/-- C8 (round trip): writing a subset whose node mapping enumerates all
source nodes in order and whose time selection covers all source time steps
reproduces every source variable exactly, up to the declared dtype casts
(`f32` on `level`, `total_depth`, `salinity`, `temperature`; identity on
`longitude`, `latitude`, `time`), at every (time, node, level) position. -/
theorem write_subset_roundtrip (f32 : ℚ → ℚ) (ds : Dataset)
    (hlat : ds.latitude.length = ds.longitude.length)
    (hdep : ds.total_depth.length = ds.longitude.length)
    (hsalT : ds.salinity.length = ds.time.length)
    (htmpT : ds.temperature.length = ds.time.length)
    (hsalN : ∀ slab ∈ ds.salinity, slab.length = ds.longitude.length)
    (htmpN : ∀ slab ∈ ds.temperature, slab.length = ds.longitude.length) :
    write_subset f32 ds (List.range ds.longitude.length) (List.range ds.time.length) =
      { node_dim := ds.longitude.length
        level_dim := ds.level.length
        time_dim := ds.time.length
        longitude := ds.longitude
        latitude := ds.latitude
        level := ds.level.map f32
        total_depth := ds.total_depth.map f32
        time := ds.time
        salinity := ds.salinity.map (fun slab => slab.map (fun row => row.map f32))
        temperature := ds.temperature.map (fun slab => slab.map (fun row => row.map f32)) } := by
  have hslice : ∀ (v : List (List (List ℚ))), v.length = ds.time.length →
      (∀ slab ∈ v, slab.length = ds.longitude.length) →
      (List.range ds.time.length).map (fun t =>
        (List.range ds.longitude.length).map (fun j => ((v.getD t []).getD j []).map f32)) =
      v.map (fun slab => slab.map (fun row => row.map f32)) := by
    intro v hv hN
    rw [← hv]
    apply List.ext_getElem (by simp)
    intro t h1 h2
    rw [List.getElem_map, List.getElem_range, List.getElem_map]
    have ht : t < v.length := by simpa using h2
    have hslab : (v.getD t []).length = ds.longitude.length := by
      rw [List.getD_eq_getElem?_getD, List.getElem?_eq_getElem ht]
      exact hN _ (List.getElem_mem ht)
    have hgetD : v.getD t [] = v[t] := by
      rw [List.getD_eq_getElem?_getD, List.getElem?_eq_getElem ht]
      rfl
    rw [← hslab, range_map_getD_comp (v.getD t []) [] (fun row => row.map f32), hgetD]
  unfold write_subset
  rw [SubsetDataset.mk.injEq]
  refine ⟨List.length_range _, rfl, List.length_range _, range_map_getD ds.longitude 0, ?_,
    rfl, ?_, range_map_getD ds.time 0,
    hslice ds.salinity hsalT hsalN, hslice ds.temperature htmpT htmpN⟩
  · rw [← hlat, range_map_getD ds.latitude 0]
  · rw [← hdep, range_map_getD_comp ds.total_depth 0 f32]

/-- Witness for C8: the sample dataset is rectangular, so the round trip
with all nodes `[0, 1]` and all time steps `[0, 1]` reproduces it. -/
theorem write_subset_roundtrip_witness :
    write_subset id sampleDataset
        (List.range sampleDataset.longitude.length)
        (List.range sampleDataset.time.length) =
      { node_dim := sampleDataset.longitude.length
        level_dim := sampleDataset.level.length
        time_dim := sampleDataset.time.length
        longitude := sampleDataset.longitude
        latitude := sampleDataset.latitude
        level := sampleDataset.level.map id
        total_depth := sampleDataset.total_depth.map id
        time := sampleDataset.time
        salinity := sampleDataset.salinity.map (fun slab => slab.map (fun row => row.map id))
        temperature := sampleDataset.temperature.map (fun slab => slab.map (fun row => row.map id)) } :=
  write_subset_roundtrip id sampleDataset rfl rfl rfl rfl
    (by intro slab hs; fin_cases hs <;> rfl)
    (by intro slab hs; fin_cases hs <;> rfl)

/-- The whole `create_subset_nc` pipeline (lines 57–120): sort the river
nodes, resolve each sorted node's `(lon, lat)` to its nearest grid index,
select the time steps, and write the subset.  Time indices are used as
nonnegative numpy indices (`Int.toNat`; Python's negative-index aliasing is
outside the intended use and not modelled).  `dist` is the geodesic
distance, `f32` the single-precision cast. -/
def create_subset_nc (dist : ℚ × ℚ → ℚ × ℚ → ℚ) (f32 : ℚ → ℚ) (ds : Dataset)
    (riverRows : List RiverNode) (axis : ℤ) (time_steps : Option (List ℤ))
    (save_frequency : ℤ) : Except NCErr SubsetDataset :=
  match sort_river_nodes dist riverRows axis with
  | .error e => .error e
  | .ok (sorted, _d) =>
    let idx := resolve_indices ds.longitude ds.latitude (sorted.map (fun r => (r.lon, r.lat)))
    match select_time_steps ds.time.length time_steps save_frequency with
    | .error e => .error e
    | .ok ts => .ok (write_subset f32 ds idx (ts.map Int.toNat))

/-- C9: the pipeline is a pure function of its inputs — it draws on no
clock, randomness or pre-existing destination state (the destination is
opened in `'w'` mode, which truncates) — so two runs on identical inputs
produce identical destination dataset contents. -/
theorem create_subset_nc_deterministic (dist : ℚ × ℚ → ℚ × ℚ → ℚ) (f32 : ℚ → ℚ)
    (ds : Dataset) (riverRows : List RiverNode) (axis : ℤ)
    (time_steps : Option (List ℤ)) (save_frequency : ℤ)
    (out1 out2 : Except NCErr SubsetDataset)
    (h1 : create_subset_nc dist f32 ds riverRows axis time_steps save_frequency = out1)
    (h2 : create_subset_nc dist f32 ds riverRows axis time_steps save_frequency = out2) :
    out1 = out2 := by
  rw [← h1, ← h2]

/-- Witness for C9: two runs on the sample inputs agree. -/
theorem create_subset_nc_deterministic_witness :
    create_subset_nc (fun a b => (a.1 - b.1) ^ 2 + (a.2 - b.2) ^ 2) id sampleDataset
        [⟨1, 3, 2⟩, ⟨2, 4, 1⟩] 0 none 1 =
      create_subset_nc (fun a b => (a.1 - b.1) ^ 2 + (a.2 - b.2) ^ 2) id sampleDataset
        [⟨1, 3, 2⟩, ⟨2, 4, 1⟩] 0 none 1 :=
  create_subset_nc_deterministic (fun a b => (a.1 - b.1) ^ 2 + (a.2 - b.2) ^ 2) id
    sampleDataset [⟨1, 3, 2⟩, ⟨2, 4, 1⟩] 0 none 1 _ _ rfl rfl

/-- `sort_river_nodes` modelled at the DataFrame level, where a column can
be missing: the parsed CSV is an association list of column name to column
values.  Mirrors lines 29–52: the `if/elif/else` on the axis selector comes
first — `sort_values(by='Lon')` (a `KeyError` if absent) only in the
`axis == 0` branch, `sort_values(by='Lat')` only in the `axis == 1` branch,
and the bare `ValueError` in the `else` branch before any column is
touched — then the `Lat`, `Lon`, `Node` columns are read (each a potential
`KeyError`) and the distance column is computed on the sorted order. -/
def sort_river_nodes_frame (dist : ℚ × ℚ → ℚ × ℚ → ℚ)
    (tbl : List (String × List ℚ)) (axis : ℤ) :
    Except NCErr (List ℚ × List ℚ × List ℚ × List ℚ) := do
  let sortBy : String → Except NCErr (List ℕ) := fun c =>
    match tbl.lookup c with
    | none => .error .missingColumn
    | some col =>
      .ok ((List.range col.length).mergeSort (fun i j => decide (col.getD i 0 ≤ col.getD j 0)))
  let getCol : String → Except NCErr (List ℚ) := fun c =>
    match tbl.lookup c with
    | none => .error .missingColumn
    | some col => .ok col
  let perm ← if axis = 0 then sortBy ("Lon")
             else if axis = 1 then sortBy ("Lat")
             else .error .invalidAxis
  let latCol ← getCol ("Lat")
  let lonCol ← getCol ("Lon")
  let nodeCol ← getCol ("Node")
  let x := perm.map (fun i => latCol.getD i 0)
  let y := perm.map (fun i => lonCol.getD i 0)
  let n := perm.map (fun i => nodeCol.getD i 0)
  let d := (List.range n.length).map (fun i =>
    if i + 1 < n.length then dist (x.getD (i + 1) 0, y.getD (i + 1) 0) (x.getD i 0, y.getD i 0)
    else 0)
  return (n, x, y, d)

/-- C10: an axis selector other than 0/1 hits the `else: raise ValueError`
branch before any column access, so the invalid-axis error is raised even
when `Node`/`Lat`/`Lon` columns are missing; conversely a missing-column
failure is only reachable under a valid axis selector. -/
theorem sort_river_nodes_frame_axis_precedence (dist : ℚ × ℚ → ℚ × ℚ → ℚ)
    (tbl : List (String × List ℚ)) (axis : ℤ) :
    (axis ≠ 0 → axis ≠ 1 →
      sort_river_nodes_frame dist tbl axis = .error .invalidAxis) ∧
    (sort_river_nodes_frame dist tbl axis = .error .missingColumn →
      axis = 0 ∨ axis = 1) := by
  constructor
  · intro h0 h1
    unfold sort_river_nodes_frame
    rw [if_neg h0, if_neg h1]
    rfl
  · intro hm
    by_cases h0 : axis = 0
    · exact Or.inl h0
    by_cases h1 : axis = 1
    · exact Or.inr h1
    exfalso
    unfold sort_river_nodes_frame at hm
    rw [if_neg h0, if_neg h1] at hm
    exact NCErr.noConfusion (Except.error.inj hm)

/-- Witness for C10: axis selector 2 on an empty table (every required
column missing) still fails with the invalid-axis error. -/
theorem sort_river_nodes_frame_axis_precedence_witness :
    sort_river_nodes_frame (fun a b => (a.1 - b.1) ^ 2 + (a.2 - b.2) ^ 2) [] 2 =
      .error .invalidAxis :=
  (sort_river_nodes_frame_axis_precedence
    (fun a b => (a.1 - b.1) ^ 2 + (a.2 - b.2) ^ 2) [] 2).1 (by decide) (by decide)

end NcTools
